import Mathlib

/-!
Verification development for the FreeFileSync abstract file-system layer
(`FreeFileSync/Source/fs/abstract.cpp`).  The C++ operations are shallowly
embedded as executable Lean functions; backend primitives that live outside
the abstract layer (concrete drivers) are modelled as explicit environment
parameters recording the outcome of each primitive call.  Ghost event traces
record the primitive calls an operation performs, so that ordering and
cleanup properties can be stated.
-/

namespace FFS

/-- Item types distinguished by the abstract layer (`AFS::ItemType`). -/
inductive ItemType where
  | file
  | folder
  | symlink
deriving DecidableEq, Repr

/-- An `AfsPath` (relative path below a device root) as its list of
components; `[]` is the device root.  The C++ stores the joined string with
single separators and no leading/trailing separator (`isValidRelPath`), which
is in bijection with the component list. -/
abbrev AfsPath := List String

/-- `AFS::getParentAfsPath`: the device root has no parent; otherwise drop
the last component (`beforeLast(value, SEP, IF_MISSING_RETURN_NONE)` yields
the empty string, i.e. the root, when no separator remains). -/
def getParentAfsPath : AfsPath → Option AfsPath
  | [] => none
  | p => some p.dropLast

/-- `AFS::getItemName`: the last path component (`afterLast`). -/
def getItemName (p : AfsPath) : String :=
  p.getLastD ""

/-- `AFS::appendRelPath` restricted to a single component. -/
def appendRelPath (p : AfsPath) (itemName : String) : AfsPath :=
  p ++ [itemName]

/-! ### Path identity model (`AFS::compareAbstractPath`)

`typeid(...).before(...)` is an implementation-defined strict order on the
dynamic backend types, stable within one process run; following spec §4.1 /
§9 it is modelled as a natural-number rank per backend type.  The device/root
comparator and `compareFilePath` live in the concrete backends / zen library
(not under the abstract layer's source), so they are modelled from the spec
as three-way comparisons. -/

/-- A backend instance: its per-type rank (model of `typeid` ordering within
one process run) and its device-root identity key. -/
structure AfsDevice where
  typeRank : Nat
  rootKey : Nat
deriving DecidableEq, Repr

/-- `AbstractPath`: backend handle plus relative path. -/
structure AbstractPath where
  afs : AfsDevice
  afsPath : AfsPath
deriving DecidableEq, Repr

/-- Three-way comparison of naturals, returning -1 / 0 / 1. -/
def cmp3 (a b : Nat) : Int :=
  if a < b then -1 else if b < a then 1 else 0

/-- Modelled from the spec: `compareDeviceRootSameAfsType`, the
backend-supplied device/root comparison used when the backend types match
(its implementations are in the per-backend drivers, outside this source). -/
def compareDeviceRootSameAfsType (a b : AfsDevice) : Int :=
  cmp3 a.rootKey b.rootKey

/-- Three-way comparison of one path component. -/
def cmpString (a b : String) : Int :=
  if a < b then -1 else if b < a then 1 else 0

/-- Modelled from the spec: `compareFilePath` (zen library, outside this
source): component-wise relative-path comparison. -/
def compareFilePath : List String → List String → Int
  | [], [] => 0
  | [], _ :: _ => -1
  | _ :: _, [] => 1
  | a :: as, b :: bs =>
    let c := cmpString a b
    if c ≠ 0 then c else compareFilePath as bs

/-- `AFS::compareAbstractPath`: backend-type order first, then device-root
comparison, then the relative paths. -/
def compareAbstractPath (lhs rhs : AbstractPath) : Int :=
  if lhs.afs.typeRank < rhs.afs.typeRank then -1
  else if rhs.afs.typeRank < lhs.afs.typeRank then 1
  else if compareDeviceRootSameAfsType lhs.afs rhs.afs ≠ 0 then
    compareDeviceRootSameAfsType lhs.afs rhs.afs
  else
    compareFilePath lhs.afsPath rhs.afsPath

theorem cmp3_self (a : Nat) : cmp3 a a = 0 := by
  simp [cmp3]

theorem cmp3_antisymm (a b : Nat) : cmp3 a b = -cmp3 b a := by
  unfold cmp3
  rcases Nat.lt_trichotomy a b with h | h | h
  · simp [h, Nat.lt_asymm h]
  · simp [h]
  · simp [h, Nat.lt_asymm h]

theorem cmpString_self (a : String) : cmpString a a = 0 := by
  simp [cmpString]

theorem cmpString_antisymm (a b : String) : cmpString a b = -cmpString b a := by
  unfold cmpString
  rcases lt_trichotomy a b with h | h | h
  · simp [h, not_lt_of_gt h]
  · simp [h]
  · simp [h, not_lt_of_gt h]

theorem compareFilePath_self (p : List String) : compareFilePath p p = 0 := by
  induction p with
  | nil => rfl
  | cons a as ih => simp [compareFilePath, cmpString_self, ih]

theorem compareFilePath_antisymm (p q : List String) :
    compareFilePath p q = -compareFilePath q p := by
  induction p generalizing q with
  | nil => cases q <;> simp [compareFilePath]
  | cons a as ih =>
    cases q with
    | nil => simp [compareFilePath]
    | cons b bs =>
      simp only [compareFilePath]
      by_cases h : cmpString a b = 0
      · have h' : cmpString b a = 0 := by
          have := cmpString_antisymm a b
          omega
        simp [h, h', ih bs]
      · have h' : cmpString b a ≠ 0 := by
          have := cmpString_antisymm a b
          omega
        simp [h, h', cmpString_antisymm a b]

/-- C8: the abstract-path comparison is reflexive (`compare(A, A) == 0`) and
antisymmetric (`compare(A, B) == -compare(B, A)`) for every two abstract
paths within one process run. -/
theorem compareAbstractPath_refl_antisymm (A B : AbstractPath) :
    compareAbstractPath A A = 0 ∧
    compareAbstractPath A B = -compareAbstractPath B A := by
  constructor
  · simp [compareAbstractPath, compareDeviceRootSameAfsType, cmp3_self,
      compareFilePath_self]
  · have hra := cmp3_antisymm A.afs.rootKey B.afs.rootKey
    have hfp := compareFilePath_antisymm A.afsPath B.afsPath
    unfold compareAbstractPath compareDeviceRootSameAfsType
    split_ifs <;> omega

/-! ### The remove-if-exists family

`removeFileIfExists`, `removeSymlinkIfExists`, `removeEmptyFolderIfExists`:
attempt the plain removal; on failure re-check existence via
`getItemTypeIfExists`; vanish-raced items are success, otherwise the original
error (or, if the re-check itself failed, an error combining both) is
raised. -/

/-- Model of `zen::FileError`: message plus details line. -/
structure FileError where
  msg : String
  details : String
deriving DecidableEq, Repr

/-- Model of `FileError::toString()`: the full text of the error. -/
def FileError.toText (e : FileError) : String :=
  e.msg ++ "\n" ++ e.details

/-- `FileError(e.toString(), e2.toString())`: the error combining the
original failure with the failed existence re-check. -/
def combineErrors (e e2 : FileError) : FileError :=
  ⟨e.toText, e2.toText⟩

/-- Outcomes of the backend primitives one remove-if-exists call performs:
the plain removal (`none` = success) and the existence re-check
(`getItemTypeIfExists`, which can itself fail). -/
structure RemoveEnv where
  plainRemoveResult : Option FileError
  recheck : Except FileError (Option ItemType)

/-- `AFS::removeFileIfExists`. -/
def removeFileIfExists (env : RemoveEnv) : Except FileError Bool :=
  match env.plainRemoveResult with
  | none => .ok true
  | some e =>
    match env.recheck with
    | .ok none => .ok false
    | .ok (some _) => .error e
    | .error e2 => .error (combineErrors e e2)

/-- `AFS::removeSymlinkIfExists`. -/
def removeSymlinkIfExists (env : RemoveEnv) : Except FileError Bool :=
  match env.plainRemoveResult with
  | none => .ok true
  | some e =>
    match env.recheck with
    | .ok none => .ok false
    | .ok (some _) => .error e
    | .error e2 => .error (combineErrors e e2)

/-- `AFS::removeEmptyFolderIfExists`. -/
def removeEmptyFolderIfExists (env : RemoveEnv) : Except FileError Unit :=
  match env.plainRemoveResult with
  | none => .ok ()
  | some e =>
    match env.recheck with
    | .ok none => .ok ()
    | .ok (some _) => .error e
    | .error e2 => .error (combineErrors e e2)

/-- C10: for all three remove-if-exists variants: plain-removal success
returns true (resp. unit); on removal failure with the item found to be gone
the call succeeds returning false (resp. unit); if the item still exists the
original error propagates; if the re-check itself fails the combined error
propagates. -/
theorem removeIfExists_cases (e e2 : FileError) (t : ItemType)
    (r : Except FileError (Option ItemType)) :
    removeFileIfExists ⟨none, r⟩ = .ok true ∧
    removeSymlinkIfExists ⟨none, r⟩ = .ok true ∧
    removeEmptyFolderIfExists ⟨none, r⟩ = .ok () ∧
    removeFileIfExists ⟨some e, .ok none⟩ = .ok false ∧
    removeSymlinkIfExists ⟨some e, .ok none⟩ = .ok false ∧
    removeEmptyFolderIfExists ⟨some e, .ok none⟩ = .ok () ∧
    removeFileIfExists ⟨some e, .ok (some t)⟩ = .error e ∧
    removeSymlinkIfExists ⟨some e, .ok (some t)⟩ = .error e ∧
    removeEmptyFolderIfExists ⟨some e, .ok (some t)⟩ = .error e ∧
    removeFileIfExists ⟨some e, .error e2⟩ = .error (combineErrors e e2) ∧
    removeSymlinkIfExists ⟨some e, .error e2⟩ = .error (combineErrors e e2) ∧
    removeEmptyFolderIfExists ⟨some e, .error e2⟩ = .error (combineErrors e e2) := by
  refine ⟨rfl, rfl, rfl, rfl, rfl, rfl, rfl, rfl, rfl, rfl, rfl, rfl⟩

/-! ### Stream-based copy (`AFS::copyFileAsStream`)

The operation is embedded as a function of the caller-supplied source
attributes and an environment recording the outcome of each backend
primitive it invokes (input/output stream opening, the buffered-stream pump,
`finalize`, `setModTime`) together with the byte total accumulated by the
`IOCallbackDivider` instrumentation over both streams.  A ghost event trace
records the primitive calls, in particular the size hint handed to
`getOutputStream`.  (`totalUnbufferedIO` of the source is spelled
`totalUnbufferedIo` here.) -/

/-- `StreamAttributes`: size, modification time, optional-free file id
(the id is an opaque token, modelled as a `Nat`). -/
structure StreamAttributes where
  modTime : Int
  fileSize : Nat
  fileId : Nat
deriving DecidableEq, Repr

/-- `AFS::FileCopyResult`. -/
structure FileCopyResult where
  fileSize : Nat
  modTime : Int
  sourceFileId : Nat
  targetFileId : Nat
  errorModTime : Option FileError
deriving DecidableEq, Repr

/-- Failures `copyFileAsStream` can raise: a propagated backend I/O error,
or the size-mismatch `FileError` built by the byte-count check. -/
inductive CopyErr where
  | ioError (e : FileError)
  | sizeMismatch (expected actual : Int)
deriving DecidableEq, Repr

/-- Outcomes of the backend primitives one `copyFileAsStream` run invokes;
`none` means the primitive succeeded.  `totalUnbufferedIo` is the byte count
the `notifyUnbufferedIO` instrumentation accumulated over the read and write
streams by the time both streams finalized. -/
structure StreamCopyEnv where
  openInputResult : Option FileError
  bufferedAttr : Option StreamAttributes
  openOutputResult : Option FileError
  streamCopyResult : Option FileError
  finalizeResult : Option FileError
  targetFileId : Nat
  totalUnbufferedIo : Int
  setModTimeResult : Option FileError
deriving DecidableEq, Repr

/-- Ghost trace of the primitive calls a stream copy performs. -/
inductive StreamEvent where
  | openInput
  | openOutput (sizeHint : Nat)
  | streamCopy
  | finalize
  | setModTime (t : Int)
deriving DecidableEq, Repr

/-- `AFS::copyFileAsStream`: open the source stream, prefer its buffered
attributes over the caller-supplied ones, open the target stream sized to
the (possibly corrected) size, pump the bytes, finalize, check the
instrumented byte total against twice the expected size, then set the
target's modification time, capturing a failure of that last step as the
advisory `errorModTime` of an otherwise successful result. -/
def copyFileAsStream (attrSource : StreamAttributes) (env : StreamCopyEnv) :
    Except CopyErr FileCopyResult × List StreamEvent :=
  match env.openInputResult with
  | some e => (.error (.ioError e), [])
  | none =>
    -- try to get the most current attributes if possible
    let attrSourceNew :=
      match env.bufferedAttr with
      | some attr => attr       -- Native/MTP
      | none => attrSource      -- SFTP/FTP: use more stale ones
    match env.openOutputResult with
    | some e => (.error (.ioError e), [.openInput])
    | none =>
      match env.streamCopyResult with
      | some e => (.error (.ioError e),
          [.openInput, .openOutput attrSourceNew.fileSize])
      | none =>
        match env.finalizeResult with
        | some e => (.error (.ioError e),
            [.openInput, .openOutput attrSourceNew.fileSize, .streamCopy])
        | none =>
          -- check if "expected == actual number of bytes written"
          if env.totalUnbufferedIo ≠ 2 * (attrSourceNew.fileSize : Int) then
            (.error (.sizeMismatch (2 * (attrSourceNew.fileSize : Int))
                env.totalUnbufferedIo),
             [.openInput, .openOutput attrSourceNew.fileSize, .streamCopy,
              .finalize])
          else
            (.ok { fileSize := attrSourceNew.fileSize
                   modTime := attrSourceNew.modTime
                   sourceFileId := attrSourceNew.fileId
                   targetFileId := env.targetFileId
                   errorModTime := env.setModTimeResult },
             [.openInput, .openOutput attrSourceNew.fileSize, .streamCopy,
              .finalize, .setModTime attrSourceNew.modTime])

/-- The size the copy works with: the buffered (live) attributes of the
opened source stream when available, else the caller-supplied ones. -/
def correctedAttr (attrSource : StreamAttributes) (env : StreamCopyEnv) :
    StreamAttributes :=
  match env.bufferedAttr with
  | some attr => attr
  | none => attrSource

/-- C2: whenever both streams opened, pumped and finalized without a
lower-level I/O error, the copy raises the size-mismatch failure exactly
when the instrumented byte total differs from twice the (possibly
stream-corrected) size N; when the total equals 2N no failure is raised at
all. -/
theorem copyFileAsStream_byteCountCheck (attrSource : StreamAttributes)
    (env : StreamCopyEnv)
    (hIn : env.openInputResult = none) (hOut : env.openOutputResult = none)
    (hPump : env.streamCopyResult = none) (hFin : env.finalizeResult = none) :
    (env.totalUnbufferedIo ≠ 2 * ((correctedAttr attrSource env).fileSize : Int) →
      (copyFileAsStream attrSource env).1 =
        .error (.sizeMismatch (2 * ((correctedAttr attrSource env).fileSize : Int))
          env.totalUnbufferedIo)) ∧
    (env.totalUnbufferedIo = 2 * ((correctedAttr attrSource env).fileSize : Int) →
      ∃ r, (copyFileAsStream attrSource env).1 = .ok r) := by
  obtain ⟨i, b, o, c, f, tid, tot, smt⟩ := env
  dsimp only at hIn hOut hPump hFin
  subst hIn; subst hOut; subst hPump; subst hFin
  constructor
  · intro hne
    cases b <;> dsimp only [correctedAttr] at hne <;>
      simp [copyFileAsStream, correctedAttr, hne]
  · intro heq
    cases b <;> dsimp only [correctedAttr] at heq <;>
      subst heq <;> simp [copyFileAsStream]

/-- Witness for C2 at concrete inputs: a mismatching byte total (5 ≠ 2·3)
yields the size-mismatch error, a matching total (6 = 2·3) yields success. -/
theorem copyFileAsStream_byteCountCheck_witness :
    (copyFileAsStream ⟨7, 3, 11⟩ ⟨none, none, none, none, none, 5, 5, none⟩).1 =
      .error (.sizeMismatch 6 5) ∧
    ∃ r, (copyFileAsStream ⟨7, 3, 11⟩ ⟨none, none, none, none, none, 5, 6, none⟩).1 =
      .ok r := by
  constructor
  · exact (copyFileAsStream_byteCountCheck ⟨7, 3, 11⟩
      ⟨none, none, none, none, none, 5, 5, none⟩ rfl rfl rfl rfl).1 (by decide)
  · exact (copyFileAsStream_byteCountCheck ⟨7, 3, 11⟩
      ⟨none, none, none, none, none, 5, 6, none⟩ rfl rfl rfl rfl).2 (by decide)

/-- C6: whenever a stream copy produces a result, its size, modification
time and source file id equal the attributes read live from the opened
stream when the stream exposed buffered attributes, and equal the
caller-supplied attributes when it exposed none; and the target write
stream was opened with a size hint equal to the possibly corrected size. -/
theorem copyFileAsStream_attrPreference (attrSource : StreamAttributes)
    (env : StreamCopyEnv) (r : FileCopyResult)
    (hr : (copyFileAsStream attrSource env).1 = .ok r) :
    ((∀ attr, env.bufferedAttr = some attr →
        r.fileSize = attr.fileSize ∧ r.modTime = attr.modTime ∧
        r.sourceFileId = attr.fileId) ∧
     (env.bufferedAttr = none →
        r.fileSize = attrSource.fileSize ∧ r.modTime = attrSource.modTime ∧
        r.sourceFileId = attrSource.fileId)) ∧
    StreamEvent.openOutput (correctedAttr attrSource env).fileSize ∈
      (copyFileAsStream attrSource env).2 := by
  obtain ⟨i, b, o, c, f, tid, tot, smt⟩ := env
  cases i with
  | some e => simp [copyFileAsStream] at hr
  | none =>
  cases o with
  | some e => simp [copyFileAsStream] at hr
  | none =>
  cases c with
  | some e => simp [copyFileAsStream] at hr
  | none =>
  cases f with
  | some e => simp [copyFileAsStream] at hr
  | none =>
  cases b with
  | none =>
    by_cases hsz : tot = 2 * (attrSource.fileSize : Int)
    · simp [copyFileAsStream, correctedAttr, hsz] at hr ⊢
      subst hr
      simp
    · simp [copyFileAsStream, hsz] at hr
  | some a =>
    by_cases hsz : tot = 2 * (a.fileSize : Int)
    · simp [copyFileAsStream, correctedAttr, hsz] at hr ⊢
      subst hr
      simp
    · simp [copyFileAsStream, hsz] at hr

/-- Witness for C6 at concrete inputs: with buffered attributes
(size 4, time 9, id 21) overriding stale caller attributes, the result
carries the live values and the output stream was sized to 4. -/
theorem copyFileAsStream_attrPreference_witness :
    ((∀ attr,
        (StreamCopyEnv.mk none (some ⟨9, 4, 21⟩) none none none 33 8 none).bufferedAttr
          = some attr →
        (FileCopyResult.mk 4 9 21 33 none).fileSize = attr.fileSize ∧
        (FileCopyResult.mk 4 9 21 33 none).modTime = attr.modTime ∧
        (FileCopyResult.mk 4 9 21 33 none).sourceFileId = attr.fileId) ∧
     ((StreamCopyEnv.mk none (some ⟨9, 4, 21⟩) none none none 33 8 none).bufferedAttr
          = none →
        (FileCopyResult.mk 4 9 21 33 none).fileSize = (StreamAttributes.mk 7 3 11).fileSize ∧
        (FileCopyResult.mk 4 9 21 33 none).modTime = (StreamAttributes.mk 7 3 11).modTime ∧
        (FileCopyResult.mk 4 9 21 33 none).sourceFileId = (StreamAttributes.mk 7 3 11).fileId)) ∧
    StreamEvent.openOutput
        (correctedAttr ⟨7, 3, 11⟩ ⟨none, some ⟨9, 4, 21⟩, none, none, none, 33, 8, none⟩).fileSize ∈
      (copyFileAsStream ⟨7, 3, 11⟩ ⟨none, some ⟨9, 4, 21⟩, none, none, none, 33, 8, none⟩).2 :=
  copyFileAsStream_attrPreference ⟨7, 3, 11⟩
    ⟨none, some ⟨9, 4, 21⟩, none, none, none, 33, 8, none⟩
    ⟨4, 9, 21, 33, none⟩ rfl

/-- C7: whenever the data-copy phase and the byte-count check succeed, a
`setModTime` failure never aborts the copy: the call returns a successful
result whose advisory `errorModTime` field is exactly the `setModTime`
outcome (the failure when it failed, empty when it succeeded). -/
theorem copyFileAsStream_modTimeAdvisory (attrSource : StreamAttributes)
    (env : StreamCopyEnv)
    (hIn : env.openInputResult = none) (hOut : env.openOutputResult = none)
    (hPump : env.streamCopyResult = none) (hFin : env.finalizeResult = none)
    (hSize : env.totalUnbufferedIo =
      2 * ((correctedAttr attrSource env).fileSize : Int)) :
    ∃ r, (copyFileAsStream attrSource env).1 = .ok r ∧
      r.errorModTime = env.setModTimeResult := by
  obtain ⟨i, b, o, c, f, tid, tot, smt⟩ := env
  dsimp only at hIn hOut hPump hFin
  subst hIn; subst hOut; subst hPump; subst hFin
  cases b <;> dsimp only [correctedAttr] at hSize <;> subst hSize <;>
    simp [copyFileAsStream]

/-- Witness for C7 at concrete inputs: a failing `setModTime` still yields a
successful result carrying the failure as its advisory field. -/
theorem copyFileAsStream_modTimeAdvisory_witness :
    ∃ r, (copyFileAsStream ⟨7, 3, 11⟩
        ⟨none, none, none, none, none, 5, 6, some ⟨"mtime", "fail"⟩⟩).1 = .ok r ∧
      r.errorModTime =
        (StreamCopyEnv.mk none none none none none 5 6
          (some ⟨"mtime", "fail"⟩)).setModTimeResult :=
  copyFileAsStream_modTimeAdvisory ⟨7, 3, 11⟩
    ⟨none, none, none, none, none, 5, 6, some ⟨"mtime", "fail"⟩⟩
    rfl rfl rfl rfl (by decide)

/-! ### Transactional copy (`AFS::copyFileTransactional`)

The filesystem is modelled as a store mapping paths to optional contents
(contents are opaque tokens).  The run of one `copyFileTransactional` call
produces a list of store events; folding them over the initial store yields
the final store.  The outcomes of the data-copy phase, the caller's
`onDeleteTargetFile` callback and `moveAndRenameItem` come from an
environment. -/

/-- A store of file contents per path (contents are opaque tokens). -/
abbrev Store := AfsPath → Option Nat

/-- Store events a transactional copy can perform. -/
inductive TxEvent where
  | createFile (p : AfsPath) (c : Nat)
  | removeFile (p : AfsPath)
  | deleteTargetCb (p : AfsPath)
  | renameItem (src dst : AfsPath)
deriving DecidableEq, Repr

/-- Effect of one store event. -/
def applyTxEvent (s : Store) : TxEvent → Store
  | .createFile p c => fun q => if q = p then some c else s q
  | .removeFile p => fun q => if q = p then none else s q
  | .deleteTargetCb p => fun q => if q = p then none else s q
  | .renameItem src dst =>
    fun q => if q = dst then s src else if q = src then none else s q

/-- Final store after a list of events. -/
def runTxEvents (s : Store) (evs : List TxEvent) : Store :=
  evs.foldl applyTxEvent s

/-- `AFS::TEMP_FILE_ENDING`. -/
def TEMP_FILE_ENDING : String := ".ffs_tmp"

/-- The characters before the last `'.'` of a name; the whole name when it
contains no dot (`find_last(fileName.begin(), fileName.end(), '.')` with the
missing case handled gracefully). -/
def stemChars (cs : List Char) : List Char :=
  match cs.reverse.dropWhile (fun ch => ch ≠ '.') with
  | [] => cs
  | _ :: before => before.reverse

/-- Stem of a file name: `Zstring(fileName.begin(), it)` for `it` the last
`'.'` (the whole name when there is none). -/
def stemOf (name : String) : String :=
  ⟨stemChars name.toList⟩

/-- `fileNameTmp = Zstring(fileName.begin(), it) + '.' + shortGuid +
TEMP_FILE_ENDING`: the uniquely named temporary sibling. -/
def fileNameTmp (fileName shortGuid : String) : String :=
  stemOf fileName ++ "." ++ shortGuid ++ TEMP_FILE_ENDING

/-- Outcomes of the phases of one `copyFileTransactional` call:
`shortGuid` is the four-hex-digit CRC16 of a freshly generated GUID;
the booleans tell whether the data-copy phase, the caller's
`onDeleteTargetFile` callback, and `moveAndRenameItem` succeed. -/
structure TxCopyEnv where
  shortGuid : String
  copyPlainOk : Bool
  deleteCbOk : Bool
  renameOk : Bool
deriving DecidableEq, Repr

/-- Modelled from the spec: `copyFilePlain` (the backend-native same-type
fast path or the `copyFileAsStream` fallback) writing `dst`.  It is itself
transactional — per the source comment "not needed before copyFilePlain()
which is already transactional" and per spec §4.4 "guaranteeing cleanup of
the temporary on any failure path after the data copy begins" — the cleanup
being implemented by the backend output-stream code outside this source.  On
success the destination file exists with the source content; on failure the
partially written destination is removed again. -/
def copyFilePlainEvents (dst : AfsPath) (content : Nat) (ok : Bool) :
    List TxEvent :=
  if ok then [.createFile dst content]
  else [.createFile dst content, .removeFile dst]

/-- `AFS::copyFileTransactional`: in transactional mode, copy to a uniquely
named temporary sibling of the target; from there on a scope-fail guard
removes the temporary; then let the caller delete the old target and rename
the temporary onto the final path.  In non-transactional mode, delete first
and copy directly. -/
def copyFileTransactional (srcContent : Nat) (apTarget : AfsPath)
    (transactionalCopy : Bool) (env : TxCopyEnv) :
    Except FileError Unit × List TxEvent :=
  if transactionalCopy then
    match getParentAfsPath apTarget with
    | none => (.error ⟨"Cannot write file.", "Path is device root."⟩, [])
    | some parentPath =>
      let fileName := getItemName apTarget
      let apTargetTmp :=
        appendRelPath parentPath (fileNameTmp fileName env.shortGuid)
      let evCopy := copyFilePlainEvents apTargetTmp srcContent env.copyPlainOk
      if env.copyPlainOk = false then
        (.error ⟨"Cannot copy file.", ""⟩, evCopy)
      -- transactional behavior: ensure cleanup (ZEN_ON_SCOPE_FAIL) from here
      else if env.deleteCbOk = false then
        (.error ⟨"Cannot delete target file.", ""⟩,
         evCopy ++ [.removeFile apTargetTmp])
      else if env.renameOk = false then
        (.error ⟨"Cannot move file.", ""⟩,
         evCopy ++ [.deleteTargetCb apTarget, .removeFile apTargetTmp])
      else
        (.ok (), evCopy ++ [.deleteTargetCb apTarget,
                            .renameItem apTargetTmp apTarget])
  else
    if env.deleteCbOk = false then
      (.error ⟨"Cannot delete target file.", ""⟩, [])
    else
      let evs := .deleteTargetCb apTarget ::
        copyFilePlainEvents apTarget srcContent env.copyPlainOk
      if env.copyPlainOk then (.ok (), evs)
      else (.error ⟨"Cannot copy file.", ""⟩, evs)

/-- C1: in transactional mode, when the data-copy phase fails after creating
the temporary (a fresh uniquely named sibling of the target), the call
fails, the trace shows the temporary was created, yet afterwards no
temporary file remains and the final target path holds exactly what it held
before. -/
theorem copyFileTransactional_cleanupOnCopyFailure (s : Store) (c : Nat)
    (apTarget : AfsPath) (env : TxCopyEnv)
    (hroot : apTarget ≠ [])
    (hfail : env.copyPlainOk = false)
    (hfresh : s (appendRelPath apTarget.dropLast
      (fileNameTmp (getItemName apTarget) env.shortGuid)) = none) :
    (∃ e, (copyFileTransactional c apTarget true env).1 = .error e) ∧
    TxEvent.createFile (appendRelPath apTarget.dropLast
        (fileNameTmp (getItemName apTarget) env.shortGuid)) c ∈
      (copyFileTransactional c apTarget true env).2 ∧
    runTxEvents s (copyFileTransactional c apTarget true env).2
      (appendRelPath apTarget.dropLast
        (fileNameTmp (getItemName apTarget) env.shortGuid)) = none ∧
    runTxEvents s (copyFileTransactional c apTarget true env).2 apTarget =
      s apTarget := by
  obtain ⟨g, cp, dc, rn⟩ := env
  dsimp only at hfail
  subst hfail
  cases apTarget with
  | nil => exact absurd rfl hroot
  | cons a l =>
    refine ⟨⟨_, rfl⟩, ?_, ?_, ?_⟩
    · simp [copyFileTransactional, copyFilePlainEvents, getParentAfsPath]
    · simp [copyFileTransactional, copyFilePlainEvents, getParentAfsPath,
        runTxEvents, applyTxEvent]
    · simp only [copyFileTransactional, copyFilePlainEvents,
        getParentAfsPath, runTxEvents, applyTxEvent, Bool.false_eq_true,
        not_false_eq_true, if_true, if_false, List.foldl]
      by_cases h : (a :: l : AfsPath) =
          appendRelPath (a :: l : AfsPath).dropLast
            (fileNameTmp (getItemName (a :: l)) g)
      · simp only [if_pos h]
        rw [← h] at hfresh
        exact hfresh.symm
      · simp only [if_neg h]

/-- Witness for C1 at concrete inputs: copying content 0 to `a/b.txt` with a
failing data-copy phase on an empty store. -/
theorem copyFileTransactional_cleanupOnCopyFailure_witness :
    (∃ e, (copyFileTransactional 0 ["a", "b.txt"] true
        ⟨"1a2b", false, true, true⟩).1 = .error e) ∧
    TxEvent.createFile (appendRelPath (["a", "b.txt"] : AfsPath).dropLast
        (fileNameTmp (getItemName ["a", "b.txt"]) "1a2b")) 0 ∈
      (copyFileTransactional 0 ["a", "b.txt"] true
        ⟨"1a2b", false, true, true⟩).2 ∧
    runTxEvents (fun _ => none) (copyFileTransactional 0 ["a", "b.txt"] true
        ⟨"1a2b", false, true, true⟩).2
      (appendRelPath (["a", "b.txt"] : AfsPath).dropLast
        (fileNameTmp (getItemName ["a", "b.txt"]) "1a2b")) = none ∧
    runTxEvents (fun _ => none) (copyFileTransactional 0 ["a", "b.txt"] true
        ⟨"1a2b", false, true, true⟩).2 ["a", "b.txt"] =
      (fun _ => none : Store) ["a", "b.txt"] :=
  copyFileTransactional_cleanupOnCopyFailure (fun _ => none) 0
    ["a", "b.txt"] ⟨"1a2b", false, true, true⟩ (by simp) rfl rfl

/-! ### Path status resolver (`AFS::getPathStatusViaFolderTraversal`)

The backend is an environment giving the outcome of `getItemType` (`none`
when the direct query throws — unreliable not-found signalling) and the flat
listing of a folder.  The C++ recurses on the parent path; here the
recursion is structural on the reversed component list (the parent of
`itemName :: parentRev` reversed is `parentRev` reversed).  The returned
ghost list records each folder for which a flat listing was performed. -/

/-- `AFS::PathStatusImpl`: deepest existing item, its path, and the missing
trailing components (root-to-leaf). -/
structure PathStatusImpl where
  existingType : ItemType
  existingAfsPath : AfsPath
  relPath : List String
deriving DecidableEq, Repr

/-- Backend primitives the resolver consumes. -/
structure ResolveEnv where
  itemType : AfsPath → Option ItemType
  listing : AfsPath → List (String × ItemType)

/-- The flat-listing search of the `traverseFolderFlat` call: the type of
the first listed item whose name equals `itemName` exactly (the
file/folder/symlink callbacks throw the respective `ItemType`). -/
def findInListing (entries : List (String × ItemType)) (itemName : String) :
    Option ItemType :=
  match entries.find? (fun e => e.1 == itemName) with
  | some e => some e.2
  | none => none

/-- Core of `AFS::getPathStatusViaFolderTraversal`, on the reversed
component list of the queried path: try the direct type query; at the root a
failure rethrows; otherwise recurse on the parent and, when the parent
itself exists and is not a plain file, perform one flat listing of the
parent searching the last component by exact name before declaring it
missing. -/
def getPathStatusRev (env : ResolveEnv) :
    List String → Except FileError (PathStatusImpl × List AfsPath)
  | [] =>
    match env.itemType [] with
    | some t => .ok (⟨t, [], []⟩, [])
    | none => .error ⟨"Cannot find path.", ""⟩
  | itemName :: parentRev =>
    match env.itemType (itemName :: parentRev).reverse with
    | some t => .ok (⟨t, (itemName :: parentRev).reverse, []⟩, [])
    | none =>
      match getPathStatusRev env parentRev with
      | .error e => .error e
      | .ok (ps, listed) =>
        if ps.relPath = [] ∧ ps.existingType ≠ ItemType.file then
          match findInListing (env.listing parentRev.reverse) itemName with
          | some t =>
            .ok (⟨t, (itemName :: parentRev).reverse, []⟩,
                 listed ++ [parentRev.reverse])
          | none =>
            .ok (⟨ps.existingType, ps.existingAfsPath,
                  ps.relPath ++ [itemName]⟩,
                 listed ++ [parentRev.reverse])
        else
          .ok (⟨ps.existingType, ps.existingAfsPath,
                ps.relPath ++ [itemName]⟩, listed)

/-- `AFS::getPathStatusViaFolderTraversal` on a path given root-to-leaf. -/
def getPathStatusViaFolderTraversal (env : ResolveEnv) (afsPath : AfsPath) :
    Except FileError (PathStatusImpl × List AfsPath) :=
  getPathStatusRev env afsPath.reverse

theorem getPathStatusRev_direct (env : ResolveEnv) (rev : List String)
    (t : ItemType) (h : env.itemType rev.reverse = some t) :
    getPathStatusRev env rev = .ok (⟨t, rev.reverse, []⟩, []) := by
  cases rev with
  | nil => simp at h; simp [getPathStatusRev, h]
  | cons n r =>
    have h' : env.itemType (r.reverse ++ [n]) = some t := by simpa using h
    simp [getPathStatusRev, h']

theorem getPathStatus_direct (env : ResolveEnv) (p : AfsPath) (t : ItemType)
    (h : env.itemType p = some t) :
    getPathStatusViaFolderTraversal env p = .ok (⟨t, p, []⟩, []) := by
  unfold getPathStatusViaFolderTraversal
  rw [getPathStatusRev_direct env p.reverse t (by simpa using h)]
  simp

theorem getPathStatusRev_parentHit (env : ResolveEnv) (a : String)
    (r : List String) (t : ItemType)
    (hmiss : env.itemType (a :: r).reverse = none)
    (hpar : env.itemType r.reverse = some t) (ht : t ≠ ItemType.file) :
    getPathStatusRev env (a :: r) =
      match findInListing (env.listing r.reverse) a with
      | some ty => .ok (⟨ty, (a :: r).reverse, []⟩, [r.reverse])
      | none => .ok (⟨t, r.reverse, [a]⟩, [r.reverse]) := by
  rw [show getPathStatusRev env (a :: r) =
      (match env.itemType (a :: r).reverse with
      | some t => .ok (⟨t, (a :: r).reverse, []⟩, [])
      | none =>
        match getPathStatusRev env r with
        | .error e => .error e
        | .ok (ps, listed) =>
          if ps.relPath = [] ∧ ps.existingType ≠ ItemType.file then
            match findInListing (env.listing r.reverse) a with
            | some t =>
              .ok (⟨t, (a :: r).reverse, []⟩, listed ++ [r.reverse])
            | none =>
              .ok (⟨ps.existingType, ps.existingAfsPath, ps.relPath ++ [a]⟩,
                   listed ++ [r.reverse])
          else
            .ok (⟨ps.existingType, ps.existingAfsPath, ps.relPath ++ [a]⟩,
                 listed)) from rfl]
  rw [hmiss, getPathStatusRev_direct env r t hpar]
  simp only [ht, ne_eq, not_false_eq_true, and_true, if_pos rfl, if_true]
  cases findInListing (env.listing r.reverse) a <;> simp

/-- C3: (i) a path whose type the backend answers directly resolves to
itself, existing, with empty missing list and no listing performed;
(ii) a path two levels under a non-existent folder below an existing
non-file ancestor resolves to that ancestor with both missing components in
root-to-leaf order, after a single listing of the ancestor; (iii) whenever
the direct query fails but the parent exists and is not a plain file,
exactly one flat listing — of the parent — is performed, searching the last
component by exact name, before the component is declared missing. -/
theorem getPathStatus_resolution (env : ResolveEnv) (p q anc : AfsPath)
    (a b : String) (t tq tanc : ItemType)
    (hdirect : env.itemType p = some t)
    (hanc : env.itemType anc = some tanc) (hancTy : tanc ≠ ItemType.file)
    (h1 : env.itemType (anc ++ [a]) = none)
    (h2 : env.itemType (anc ++ [a, b]) = none)
    (hl : findInListing (env.listing anc) a = none)
    (hq : q ≠ []) (hqmiss : env.itemType q = none)
    (hqpar : env.itemType q.dropLast = some tq)
    (hqty : tq ≠ ItemType.file) :
    getPathStatusViaFolderTraversal env p = .ok (⟨t, p, []⟩, []) ∧
    getPathStatusViaFolderTraversal env (anc ++ [a, b]) =
      .ok (⟨tanc, anc, [a, b]⟩, [anc]) ∧
    getPathStatusViaFolderTraversal env q =
      (match findInListing (env.listing q.dropLast) (getItemName q) with
      | some ty => .ok (⟨ty, q, []⟩, [q.dropLast])
      | none => .ok (⟨tq, q.dropLast, [getItemName q]⟩, [q.dropLast])) := by
  refine ⟨getPathStatus_direct env p t hdirect, ?_, ?_⟩
  · unfold getPathStatusViaFolderTraversal
    have hrev : (anc ++ [a, b]).reverse = b :: a :: anc.reverse := by simp
    rw [hrev]
    rw [show getPathStatusRev env (b :: a :: anc.reverse) =
        (match env.itemType (b :: a :: anc.reverse).reverse with
        | some t => .ok (⟨t, (b :: a :: anc.reverse).reverse, []⟩, [])
        | none =>
          match getPathStatusRev env (a :: anc.reverse) with
          | .error e => .error e
          | .ok (ps, listed) =>
            if ps.relPath = [] ∧ ps.existingType ≠ ItemType.file then
              match findInListing (env.listing (a :: anc.reverse).reverse) b with
              | some t =>
                .ok (⟨t, (b :: a :: anc.reverse).reverse, []⟩,
                     listed ++ [(a :: anc.reverse).reverse])
              | none =>
                .ok (⟨ps.existingType, ps.existingAfsPath, ps.relPath ++ [b]⟩,
                     listed ++ [(a :: anc.reverse).reverse])
            else
              .ok (⟨ps.existingType, ps.existingAfsPath, ps.relPath ++ [b]⟩,
                   listed)) from rfl]
    have hm2 : env.itemType (b :: a :: anc.reverse).reverse = none := by
      simpa using h2
    rw [hm2]
    rw [getPathStatusRev_parentHit env a anc.reverse tanc
      (by simpa using h1) (by simpa using hanc) hancTy]
    have hl' : findInListing (env.listing anc.reverse.reverse) a = none := by
      simpa using hl
    rw [hl']
    simp
  · obtain ⟨q', last, rfl⟩ := (List.eq_nil_or_concat q).resolve_left hq
    simp only [List.concat_eq_append] at hqmiss hqpar ⊢
    unfold getPathStatusViaFolderTraversal
    have hrev : (q' ++ [last]).reverse = last :: q'.reverse := by simp
    rw [hrev]
    rw [getPathStatusRev_parentHit env last q'.reverse tq
      (by simpa using hqmiss) (by simpa using hqpar) hqty]
    have hname : getItemName (q' ++ [last]) = last := by
      simp [getItemName]
    have hdrop : (q' ++ [last]).dropLast = q' := by simp
    rw [hname, hdrop]
    cases hfl : findInListing (env.listing q') last <;> simp [hfl]

/-- Witness for C3 at a concrete environment: root `[]` and folder `r`
exist, nothing else; `p = ["r"]` resolves directly; `["r", "x", "y"]`
resolves to ancestor `["r"]` with missing components `["x", "y"]` after one
listing; and for `q = ["r", "x"]` the single parent listing declares `x`
missing. -/
theorem getPathStatus_resolution_witness :
    getPathStatusViaFolderTraversal
      ⟨fun p => if p = [] ∨ p = ["r"] then some ItemType.folder else none,
       fun _ => []⟩ ["r"] = .ok (⟨ItemType.folder, ["r"], []⟩, []) ∧
    getPathStatusViaFolderTraversal
      ⟨fun p => if p = [] ∨ p = ["r"] then some ItemType.folder else none,
       fun _ => []⟩ (["r"] ++ ["x", "y"]) =
      .ok (⟨ItemType.folder, ["r"], ["x", "y"]⟩, [["r"]]) ∧
    getPathStatusViaFolderTraversal
      ⟨fun p => if p = [] ∨ p = ["r"] then some ItemType.folder else none,
       fun _ => []⟩ ["r", "x"] =
      (match findInListing
          ((fun (_ : AfsPath) => ([] : List (String × ItemType))) (["r", "x"] : AfsPath).dropLast)
          (getItemName ["r", "x"]) with
      | some ty => .ok (⟨ty, ["r", "x"], []⟩, [(["r", "x"] : AfsPath).dropLast])
      | none => .ok (⟨ItemType.folder, (["r", "x"] : AfsPath).dropLast,
          [getItemName ["r", "x"]]⟩, [(["r", "x"] : AfsPath).dropLast])) :=
  getPathStatus_resolution
    ⟨fun p => if p = [] ∨ p = ["r"] then some ItemType.folder else none,
     fun _ => []⟩
    ["r"] ["r", "x"] ["r"] "x" "y" ItemType.folder ItemType.folder ItemType.folder
    (by decide) (by decide) (by decide) (by decide) (by decide) (by decide)
    (by decide) (by decide) (by decide) (by decide)

/-! ### Recursive delete (`AFS::removeFolderIfExistsRecursion`)

A folder's contents are a tree of named nodes in backend listing order.
The run of one delete produces the list of notification and plain-removal
calls in order.  `removeFolderRecursion` mirrors the C++
`removeFolderRecursionImpl`: one flat listing collects the file, folder and
symlink names into three vectors (deferred recursion), then files are
deleted, then symlinks, then each subfolder recursively, then the folder
itself, each deletion preceded by its notification. -/

/-- One directory entry: file, symlink, or folder with its own listing. -/
inductive FsNode where
  | file (name : String)
  | symlink (name : String)
  | folder (name : String) (children : List FsNode)
deriving Repr

/-- Notification and removal calls a recursive delete performs. -/
inductive DelEvent where
  | notifyFile (p : AfsPath)
  | notifyFolder (p : AfsPath)
  | removeFilePlain (p : AfsPath)
  | removeSymlinkPlain (p : AfsPath)
  | removeFolderPlain (p : AfsPath)
deriving DecidableEq, Repr

/-- The `fileNames` vector the flat-traversal callback collects. -/
def fileNamesOf (entries : List FsNode) : List String :=
  entries.filterMap fun n =>
    match n with
    | .file s => some s
    | _ => none

/-- The `symlinkNames` vector the flat-traversal callback collects. -/
def symlinkNamesOf (entries : List FsNode) : List String :=
  entries.filterMap fun n =>
    match n with
    | .symlink s => some s
    | _ => none

mutual

/-- `removeFolderRecursionImpl`: delete the collected files, then the
collected symlinks, then each subfolder recursively, then notify for and
remove the folder itself. -/
def removeFolderRecursion (folderPath : AfsPath) (entries : List FsNode) :
    List DelEvent :=
  (fileNamesOf entries).flatMap (fun fileName =>
    [.notifyFile (appendRelPath folderPath fileName),
     .removeFilePlain (appendRelPath folderPath fileName)])
  ++ (symlinkNamesOf entries).flatMap (fun symlinkName =>
    [.notifyFile (appendRelPath folderPath symlinkName),
     .removeSymlinkPlain (appendRelPath folderPath symlinkName)])
  ++ removeSubfolders folderPath entries
  ++ [.notifyFolder folderPath, .removeFolderPlain folderPath]
termination_by (sizeOf entries, 1)

/-- The loop over the collected `folderNames`, recursing in listing order
(each recursive call re-lists the subfolder, i.e. uses its children). -/
def removeSubfolders (folderPath : AfsPath) : List FsNode → List DelEvent
  | [] => []
  | .folder name children :: rest =>
    removeFolderRecursion (appendRelPath folderPath name) children
      ++ removeSubfolders folderPath rest
  | .file _ :: rest => removeSubfolders folderPath rest
  | .symlink _ :: rest => removeSubfolders folderPath rest
termination_by l => (sizeOf l, 0)

end

mutual

/-- Transcription of spec §4.6's deletion order: "all files first
(notify-then-delete, one notification per item), then all symlinks
(notify-then-delete), then each subfolder recursively ..., and finally the
folder itself (notify-then-delete)". -/
def specDeletionTrace (folderPath : AfsPath) (entries : List FsNode) :
    List DelEvent :=
  specFilePhase folderPath entries
  ++ specSymlinkPhase folderPath entries
  ++ specFolderPhase folderPath entries
  ++ [.notifyFolder folderPath, .removeFolderPlain folderPath]
termination_by (sizeOf entries, 1)

/-- Files of the folder, in listing order, notify-then-delete each. -/
def specFilePhase (folderPath : AfsPath) : List FsNode → List DelEvent
  | [] => []
  | .file name :: rest =>
    .notifyFile (folderPath ++ [name]) ::
      .removeFilePlain (folderPath ++ [name]) ::
        specFilePhase folderPath rest
  | .symlink _ :: rest => specFilePhase folderPath rest
  | .folder _ _ :: rest => specFilePhase folderPath rest
termination_by l => (sizeOf l, 0)

/-- Symlinks of the folder, in listing order, notify-then-delete each. -/
def specSymlinkPhase (folderPath : AfsPath) : List FsNode → List DelEvent
  | [] => []
  | .symlink name :: rest =>
    .notifyFile (folderPath ++ [name]) ::
      .removeSymlinkPlain (folderPath ++ [name]) ::
        specSymlinkPhase folderPath rest
  | .file _ :: rest => specSymlinkPhase folderPath rest
  | .folder _ _ :: rest => specSymlinkPhase folderPath rest
termination_by l => (sizeOf l, 0)

/-- Each subfolder recursively, in listing order. -/
def specFolderPhase (folderPath : AfsPath) : List FsNode → List DelEvent
  | [] => []
  | .folder name children :: rest =>
    specDeletionTrace (folderPath ++ [name]) children
      ++ specFolderPhase folderPath rest
  | .file _ :: rest => specFolderPhase folderPath rest
  | .symlink _ :: rest => specFolderPhase folderPath rest
termination_by l => (sizeOf l, 0)

end

/-- Checks that a trace is a sequence of notification/removal pairs: every
removal is immediately preceded by exactly one notification of the same
path, and there are no stray events. -/
def pairedOk : List DelEvent → Bool
  | [] => true
  | .notifyFile p :: .removeFilePlain q :: rest => p == q && pairedOk rest
  | .notifyFile p :: .removeSymlinkPlain q :: rest => p == q && pairedOk rest
  | .notifyFolder p :: .removeFolderPlain q :: rest => p == q && pairedOk rest
  | _ => false

/-- `AFS::removeFolderIfExistsRecursion`: resolve the item; a missing item
is a no-op apart from the folder notification; a symlink is notified for
and removed directly; anything else is deleted recursively. -/
def removeFolderIfExistsRecursion (ap : AfsPath)
    (statusResult : Except FileError (Option (ItemType × List FsNode))) :
    Except FileError (List DelEvent) :=
  match statusResult with
  | .error e => .error e
  | .ok none => .ok [.notifyFolder ap]
  | .ok (some (t, entries)) =>
    if t = ItemType.symlink then
      .ok [.notifyFile ap, .removeSymlinkPlain ap]
    else
      .ok (removeFolderRecursion ap entries)

theorem specFilePhase_eq_bind (p : AfsPath) (l : List FsNode) :
    (fileNamesOf l).flatMap (fun fileName =>
      [DelEvent.notifyFile (appendRelPath p fileName),
       DelEvent.removeFilePlain (appendRelPath p fileName)]) =
    specFilePhase p l := by
  induction l with
  | nil => simp [fileNamesOf, specFilePhase]
  | cons n rest ih =>
    cases n <;> simp [fileNamesOf, specFilePhase, appendRelPath, ih,
      List.filterMap_cons] <;>
      simpa [fileNamesOf] using ih

theorem specSymlinkPhase_eq_bind (p : AfsPath) (l : List FsNode) :
    (symlinkNamesOf l).flatMap (fun symlinkName =>
      [DelEvent.notifyFile (appendRelPath p symlinkName),
       DelEvent.removeSymlinkPlain (appendRelPath p symlinkName)]) =
    specSymlinkPhase p l := by
  induction l with
  | nil => simp [symlinkNamesOf, specSymlinkPhase]
  | cons n rest ih =>
    cases n <;> simp [symlinkNamesOf, specSymlinkPhase, appendRelPath, ih,
      List.filterMap_cons] <;>
      simpa [symlinkNamesOf] using ih

mutual

theorem removeFolderRecursion_eq_spec (p : AfsPath) (entries : List FsNode) :
    removeFolderRecursion p entries = specDeletionTrace p entries := by
  rw [removeFolderRecursion, specDeletionTrace,
    specFilePhase_eq_bind p entries, specSymlinkPhase_eq_bind p entries,
    removeSubfolders_eq_spec p entries]
termination_by (sizeOf entries, 1)

theorem removeSubfolders_eq_spec (p : AfsPath) (l : List FsNode) :
    removeSubfolders p l = specFolderPhase p l := by
  match l with
  | [] => rw [removeSubfolders, specFolderPhase]
  | .folder name children :: rest =>
    rw [removeSubfolders, specFolderPhase,
      removeFolderRecursion_eq_spec (appendRelPath p name) children,
      removeSubfolders_eq_spec p rest]
    rfl
  | .file _ :: rest =>
    rw [removeSubfolders, specFolderPhase, removeSubfolders_eq_spec p rest]
  | .symlink _ :: rest =>
    rw [removeSubfolders, specFolderPhase, removeSubfolders_eq_spec p rest]
termination_by (sizeOf l, 0)

end

theorem pairedOk_specFilePhase (p : AfsPath) (l : List FsNode)
    (rest : List DelEvent) :
    pairedOk (specFilePhase p l ++ rest) = pairedOk rest := by
  induction l with
  | nil => simp [specFilePhase]
  | cons n tl ih => cases n <;> simp [specFilePhase, pairedOk, ih]

theorem pairedOk_specSymlinkPhase (p : AfsPath) (l : List FsNode)
    (rest : List DelEvent) :
    pairedOk (specSymlinkPhase p l ++ rest) = pairedOk rest := by
  induction l with
  | nil => simp [specSymlinkPhase]
  | cons n tl ih => cases n <;> simp [specSymlinkPhase, pairedOk, ih]

mutual

theorem pairedOk_specDeletionTrace (p : AfsPath) (entries : List FsNode)
    (rest : List DelEvent) :
    pairedOk (specDeletionTrace p entries ++ rest) = pairedOk rest := by
  rw [specDeletionTrace]
  rw [List.append_assoc, List.append_assoc, List.append_assoc,
    pairedOk_specFilePhase, pairedOk_specSymlinkPhase,
    pairedOk_specFolderPhase]
  simp [pairedOk]
termination_by (sizeOf entries, 1)

theorem pairedOk_specFolderPhase (p : AfsPath) (l : List FsNode)
    (rest : List DelEvent) :
    pairedOk (specFolderPhase p l ++ rest) = pairedOk rest := by
  match l with
  | [] => rw [specFolderPhase]; rfl
  | .folder name children :: tl =>
    rw [specFolderPhase, List.append_assoc,
      pairedOk_specDeletionTrace (p ++ [name]) children,
      pairedOk_specFolderPhase p tl]
  | .file _ :: tl =>
    rw [specFolderPhase, pairedOk_specFolderPhase p tl]
  | .symlink _ :: tl =>
    rw [specFolderPhase, pairedOk_specFolderPhase p tl]
termination_by (sizeOf l, 0)

end

/-- C4: deleting an existing folder produces exactly the spec §4.6 order —
per folder all files first, then all symlinks, then each subfolder
recursively, finally the folder itself — and the trace consists of
notification/removal pairs: exactly one "about to delete" notification per
item, immediately before its removal call. -/
theorem removeFolder_deletionOrder (ap : AfsPath) (entries : List FsNode) :
    removeFolderIfExistsRecursion ap (.ok (some (ItemType.folder, entries))) =
      .ok (specDeletionTrace ap entries) ∧
    pairedOk (removeFolderRecursion ap entries) = true := by
  constructor
  · simp [removeFolderIfExistsRecursion,
      removeFolderRecursion_eq_spec ap entries]
  · rw [removeFolderRecursion_eq_spec ap entries]
    have := pairedOk_specDeletionTrace ap entries []
    simpa using this

/-- C9: recursive delete of a non-existent path succeeds as a no-op: the
result is exactly the single "about to delete folder" notification — no
removal call is issued and no error is raised. -/
theorem removeFolder_missingIsNoOp (ap : AfsPath) :
    removeFolderIfExistsRecursion ap (.ok none) =
      .ok [DelEvent.notifyFolder ap] :=
  rfl

/-! ### Recursive folder creation (`AFS::createFolderIfMissingRecursion`)

A filesystem state is an association list from paths to item types (first
entry wins).  The resolver of §4.3 is reused through the environment the
state induces; `createFolderPlain` is the backend's single-level folder
creation. -/

/-- A filesystem state below one device root. -/
abbrev FsState := List (AfsPath × ItemType)

/-- First entry for a path, if any. -/
def lookupType : FsState → AfsPath → Option ItemType
  | [], _ => none
  | (q, t) :: rest, p => if q = p then some t else lookupType rest p

/-- The resolver environment a state induces: the direct type query answers
from the state (the device root always exists as a folder), and the flat
listing of a folder lists the entries directly below it, in state order. -/
def envOf (s : FsState) : ResolveEnv where
  itemType := fun p =>
    if p = [] then some ItemType.folder else lookupType s p
  listing := fun p =>
    s.filterMap fun e =>
      if e.1 ≠ [] ∧ e.1.dropLast = p then some (getItemName e.1, e.2)
      else none

/-- Modelled from the spec: `createFolderPlain` — "create one folder level
(non-recursive)" (a backend primitive, outside this source).  It fails when
the target already exists ("target existing: undefined behavior!
(fail/overwrite)" — the fail behavior), when the target is the device root,
or when the parent folder is missing. -/
def createFolderPlain (s : FsState) (p : AfsPath) : Except FileError FsState :=
  if (lookupType s p).isSome then
    .error ⟨"Cannot create directory.", "Already exists."⟩
  else
    match getParentAfsPath p with
    | none => .error ⟨"Cannot create directory.", "Device root."⟩
    | some parent =>
      if parent = [] ∨ lookupType s parent = some ItemType.folder then
        .ok ((p, ItemType.folder) :: s)
      else .error ⟨"Cannot create directory.", "Parent missing."⟩

/-- `AFS::getItemType` on a state (the device root always exists). -/
def getItemTypeS (s : FsState) (p : AfsPath) : Except FileError ItemType :=
  match (envOf s).itemType p with
  | some t => .ok t
  | none => .error ⟨"Cannot find item.", ""⟩

/-- The loop of `createFolderIfMissingRecursion`: walk the missing
components outward from the deepest existing ancestor, creating each
intermediate folder, tolerating "already exists" races by re-checking the
item type on each failure (anything other than a plain file counts as
already satisfied; the creation failure propagates otherwise, also when the
re-check itself fails). -/
def createComponents (s : FsState) (intermediatePath : AfsPath) :
    List String → Except FileError FsState
  | [] => .ok s
  | itemName :: rest =>
    match createFolderPlain s (appendRelPath intermediatePath itemName) with
    | .ok s' => createComponents s' (appendRelPath intermediatePath itemName) rest
    | .error e =>
      match getItemTypeS s (appendRelPath intermediatePath itemName) with
      | .ok t =>
        if t ≠ ItemType.file then
          createComponents s (appendRelPath intermediatePath itemName) rest
        else .error e
      | .error _ => .error e

/-- `AFS::createFolderIfMissingRecursion`: at the device root only query the
type; otherwise try the plain creation, and on failure resolve the path
status — a plain file as deepest existing item rethrows — then create the
missing components outward. -/
def createFolderIfMissingRecursion (s : FsState) (ap : AfsPath) :
    Except FileError FsState :=
  if ap = [] then    -- !getParentFolderPath(ap): device root
    match getItemTypeS s ap with
    | .ok _ => .ok s
    | .error e => .error e
  else
    match createFolderPlain s ap with
    | .ok s' => .ok s'
    | .error e =>
      match getPathStatusViaFolderTraversal (envOf s) ap with
      | .error e2 => .error e2
      | .ok (ps, _) =>
        if ps.existingType = ItemType.file then .error e
        else createComponents s ps.existingAfsPath ps.relPath

/-- "The folder (or a non-file item) is present at the path": the state of
affairs after a successful recursive create. -/
def presentNonFile (s : FsState) (p : AfsPath) : Prop :=
  p = [] ∨ ∃ t, lookupType s p = some t ∧ t ≠ ItemType.file

theorem dropLast_append_itemName (p : AfsPath) (h : p ≠ []) :
    p.dropLast ++ [getItemName p] = p := by
  obtain ⟨l, a, rfl⟩ := (List.eq_nil_or_concat p).resolve_left h
  simp [getItemName]

theorem findInListing_cons (x : String × ItemType)
    (l : List (String × ItemType)) (name : String) :
    findInListing (x :: l) name =
      if x.1 = name then some x.2 else findInListing l name := by
  by_cases h : x.1 = name <;> simp [findInListing, List.find?_cons, h]

/-- Under the environment a state induces, the flat-listing search for the
last component agrees with a direct lookup of the full path. -/
theorem findInListing_envOf (s : FsState) (parent : AfsPath) (name : String) :
    findInListing ((envOf s).listing parent) name =
      lookupType s (parent ++ [name]) := by
  induction s with
  | nil => rfl
  | cons e rest ih =>
    obtain ⟨q, t⟩ := e
    by_cases hc : q ≠ [] ∧ q.dropLast = parent
    · have hl : (envOf ((q, t) :: rest)).listing parent =
          (getItemName q, t) :: (envOf rest).listing parent := by
        simp [envOf, List.filterMap_cons, hc.1, hc.2]
      rw [hl, findInListing_cons]
      by_cases hq : q = parent ++ [name]
      · subst hq
        have hgn : getItemName (parent ++ [name]) = name := by
          simp [getItemName]
        simp [hgn, lookupType]
      · have hgn : getItemName q ≠ name := fun hn =>
          hq (by rw [← dropLast_append_itemName q hc.1, hc.2, hn])
        simp [hgn, lookupType, hq, ih]
    · have hl : (envOf ((q, t) :: rest)).listing parent =
          (envOf rest).listing parent := by
        simp only [envOf, List.filterMap_cons]
        rw [if_neg hc]
      have hq : q ≠ parent ++ [name] := by
        intro h
        subst h
        exact hc ⟨by simp, by simp⟩
      rw [hl]
      simp [lookupType, hq, ih]

/-- Soundness of the resolver under a state environment: the existing path
plus the missing components reassemble the queried path, and an empty
missing list means the queried path itself is the root or is present in the
state with the reported type. -/
theorem getPathStatusRev_envOf_sound (s : FsState) (rev : List String)
    (ps : PathStatusImpl) (listed : List AfsPath)
    (h : getPathStatusRev (envOf s) rev = .ok (ps, listed)) :
    ps.existingAfsPath ++ ps.relPath = rev.reverse ∧
    (ps.relPath = [] →
      (rev.reverse = [] ∨ lookupType s rev.reverse = some ps.existingType)) := by
  induction rev generalizing ps listed with
  | nil =>
    have hroot : getPathStatusRev (envOf s) [] =
        .ok (⟨ItemType.folder, [], []⟩, []) := by
      simp [getPathStatusRev, envOf]
    rw [hroot] at h
    simp only [Except.ok.injEq, Prod.mk.injEq] at h
    obtain ⟨h1, h2⟩ := h
    subst h1
    simp
  | cons n r ih =>
    rw [getPathStatusRev] at h
    cases hdir : (envOf s).itemType ((n :: r).reverse) with
    | some t =>
      rw [hdir] at h
      simp only [Except.ok.injEq, Prod.mk.injEq] at h
      obtain ⟨h1, h2⟩ := h
      subst h1
      refine ⟨by simp, fun _ => Or.inr ?_⟩
      have hne : ((n :: r).reverse : AfsPath) ≠ [] := by simp
      simpa [envOf, hne] using hdir
    | none =>
      rw [hdir] at h
      cases hrec : getPathStatusRev (envOf s) r with
      | error e => rw [hrec] at h; exact absurd h (by simp)
      | ok pr =>
        obtain ⟨ps0, listed0⟩ := pr
        rw [hrec] at h
        dsimp only at h
        obtain ⟨hap0, hrel0⟩ := ih ps0 listed0 hrec
        by_cases hcond : ps0.relPath = [] ∧ ps0.existingType ≠ ItemType.file
        · rw [if_pos hcond] at h
          cases hfl : findInListing ((envOf s).listing r.reverse) n with
          | some t =>
            rw [hfl] at h
            simp only [Except.ok.injEq, Prod.mk.injEq] at h
            obtain ⟨h1, h2⟩ := h
            subst h1
            refine ⟨by simp, fun _ => Or.inr ?_⟩
            rw [findInListing_envOf s r.reverse n] at hfl
            simpa using hfl
          | none =>
            rw [hfl] at h
            simp only [Except.ok.injEq, Prod.mk.injEq] at h
            obtain ⟨h1, h2⟩ := h
            subst h1
            refine ⟨?_, by simp⟩
            simp [← List.append_assoc, hap0]
        · rw [if_neg hcond] at h
          simp only [Except.ok.injEq, Prod.mk.injEq] at h
          obtain ⟨h1, h2⟩ := h
          subst h1
          refine ⟨?_, by simp⟩
          simp [← List.append_assoc, hap0]

theorem createFolderPlain_ok_eq (s : FsState) (p : AfsPath) (s' : FsState)
    (h : createFolderPlain s p = .ok s') :
    s' = (p, ItemType.folder) :: s := by
  unfold createFolderPlain at h
  by_cases h1 : (lookupType s p).isSome
  · rw [if_pos h1] at h; exact absurd h (by simp)
  · rw [if_neg h1] at h
    cases hp : getParentAfsPath p with
    | none => rw [hp] at h; exact absurd h (by simp)
    | some parent =>
      rw [hp] at h
      dsimp only at h
      by_cases h2 : parent = [] ∨ lookupType s parent = some ItemType.folder
      · rw [if_pos h2] at h; simpa using h.symm
      · rw [if_neg h2] at h; exact absurd h (by simp)

theorem getItemTypeS_ok_lookup (s : FsState) (p : AfsPath) (t : ItemType)
    (hp : p ≠ []) (h : getItemTypeS s p = .ok t) :
    lookupType s p = some t := by
  unfold getItemTypeS at h
  simp only [envOf] at h
  rw [if_neg hp] at h
  cases hl : lookupType s p with
  | none => rw [hl] at h; exact absurd h (by simp)
  | some t2 => rw [hl] at h; simpa using h

theorem createComponents_ok_lookup (l : List String) :
    ∀ (s : FsState) (base : AfsPath) (s' : FsState) (n : String),
      createComponents s base (n :: l) = .ok s' →
      ∃ t, lookupType s' (base ++ n :: l) = some t ∧ t ≠ ItemType.file := by
  induction l with
  | nil =>
    intro s base s' n h
    simp only [createComponents] at h
    cases hcp : createFolderPlain s (appendRelPath base n) with
    | ok s1 =>
      rw [hcp] at h
      dsimp only at h
      have hs : s1 = s' := by simpa using h
      subst hs
      have he := createFolderPlain_ok_eq s (appendRelPath base n) s1 hcp
      subst he
      exact ⟨ItemType.folder, by simp [lookupType, appendRelPath], by decide⟩
    | error e =>
      rw [hcp] at h
      dsimp only at h
      cases hit : getItemTypeS s (appendRelPath base n) with
      | ok t =>
        rw [hit] at h
        dsimp only at h
        by_cases ht : t ≠ ItemType.file
        · rw [if_pos ht] at h
          have hs : s = s' := by simpa [createComponents] using h
          subst hs
          refine ⟨t, ?_, ht⟩
          have := getItemTypeS_ok_lookup s (appendRelPath base n) t
            (by simp [appendRelPath]) hit
          simpa [appendRelPath] using this
        · rw [if_neg ht] at h; exact absurd h (by simp)
      | error e2 => rw [hit] at h; exact absurd h (by simp)
  | cons m rest ih =>
    intro s base s' n h
    simp only [createComponents] at h
    cases hcp : createFolderPlain s (appendRelPath base n) with
    | ok s1 =>
      rw [hcp] at h
      dsimp only at h
      obtain ⟨t, hl2, ht⟩ := ih s1 (appendRelPath base n) s' m h
      exact ⟨t, by simpa [appendRelPath, List.append_assoc] using hl2, ht⟩
    | error e =>
      rw [hcp] at h
      dsimp only at h
      cases hit : getItemTypeS s (appendRelPath base n) with
      | ok t =>
        rw [hit] at h
        dsimp only at h
        by_cases ht : t ≠ ItemType.file
        · rw [if_pos ht] at h
          obtain ⟨t2, hl2, ht2⟩ := ih s (appendRelPath base n) s' m h
          exact ⟨t2, by simpa [appendRelPath, List.append_assoc] using hl2, ht2⟩
        · rw [if_neg ht] at h; exact absurd h (by simp)
      | error e2 => rw [hit] at h; exact absurd h (by simp)

theorem createFolder_presentNonFile (s : FsState) (p : AfsPath)
    (h : presentNonFile s p) :
    createFolderIfMissingRecursion s p = .ok s := by
  cases p with
  | nil => rfl
  | cons a l =>
    rcases h with habs | ⟨t, hl, ht⟩
    · exact absurd habs (by simp)
    · have hne : (a :: l : AfsPath) ≠ [] := by simp
      have henv : (envOf s).itemType (a :: l) = some t := by
        simp [envOf, hl]
      unfold createFolderIfMissingRecursion
      rw [if_neg hne]
      have hcp : createFolderPlain s (a :: l) =
          .error ⟨"Cannot create directory.", "Already exists."⟩ := by
        unfold createFolderPlain
        rw [if_pos (by simp [hl])]
      rw [hcp, getPathStatus_direct (envOf s) (a :: l) t henv]
      simp [ht, createComponents]

theorem createFolder_ok_presentNonFile (s s' : FsState) (p : AfsPath)
    (h : createFolderIfMissingRecursion s p = .ok s') :
    presentNonFile s' p := by
  cases p with
  | nil => exact Or.inl rfl
  | cons a l =>
    have hne : (a :: l : AfsPath) ≠ [] := by simp
    unfold createFolderIfMissingRecursion at h
    rw [if_neg hne] at h
    cases hcp : createFolderPlain s (a :: l) with
    | ok s1 =>
      rw [hcp] at h
      have hs : s1 = s' := by simpa using h
      subst hs
      have he := createFolderPlain_ok_eq s (a :: l) s1 hcp
      subst he
      exact Or.inr ⟨ItemType.folder, by simp [lookupType], by decide⟩
    | error e =>
      rw [hcp] at h
      cases hres : getPathStatusViaFolderTraversal (envOf s) (a :: l) with
      | error e2 => rw [hres] at h; exact absurd h (by simp)
      | ok pr =>
        obtain ⟨ps, listed⟩ := pr
        rw [hres] at h
        dsimp only at h
        by_cases hft : ps.existingType = ItemType.file
        · rw [if_pos hft] at h; exact absurd h (by simp)
        · rw [if_neg hft] at h
          have hrev : getPathStatusRev (envOf s) ((a :: l : AfsPath).reverse) =
              .ok (ps, listed) := hres
          have hsound := getPathStatusRev_envOf_sound s
            ((a :: l : AfsPath).reverse) ps listed hrev
          simp only [List.reverse_reverse] at hsound
          cases hrelc : ps.relPath with
          | nil =>
            rw [hrelc] at h
            simp only [createComponents] at h
            have hs : s = s' := by simpa using h
            subst hs
            obtain ⟨t, hlk⟩ :
                ∃ t, lookupType s (a :: l) = some t ∧ ps.existingType = t := by
              rcases hsound.2 hrelc with habs | hlk
              · exact absurd habs (by simp)
              · exact ⟨ps.existingType, hlk, rfl⟩
            exact Or.inr ⟨t, hlk.1, by rw [← hlk.2]; exact hft⟩
          | cons m restL =>
            rw [hrelc] at h
            obtain ⟨t2, hl2, ht2⟩ :=
              createComponents_ok_lookup restL s ps.existingAfsPath s' m h
            have hpath : ps.existingAfsPath ++ m :: restL = a :: l := by
              have h0 := hsound.1
              rw [hrelc] at h0
              exact h0
            rw [hpath] at hl2
            exact Or.inr ⟨t2, hl2, ht2⟩

/-- C5: recursive folder creation is idempotent: calling it when the folder
already exists (the device root included) succeeds and leaves the state —
and hence the existing folder — unchanged; and after any successful call, an
immediate second call succeeds with no error and no further change, the
created path holding a non-file item. -/
theorem createFolderIfMissing_idempotent :
    (∀ (s : FsState) (p : AfsPath),
      p = [] ∨ lookupType s p = some ItemType.folder →
      createFolderIfMissingRecursion s p = .ok s) ∧
    (∀ (s : FsState) (p : AfsPath) (s' : FsState),
      createFolderIfMissingRecursion s p = .ok s' →
      createFolderIfMissingRecursion s' p = .ok s' ∧ presentNonFile s' p) := by
  constructor
  · intro s p hp
    apply createFolder_presentNonFile
    rcases hp with rfl | hfold
    · exact Or.inl rfl
    · exact Or.inr ⟨ItemType.folder, hfold, by decide⟩
  · intro s p s' h
    have hpnf := createFolder_ok_presentNonFile s s' p h
    exact ⟨createFolder_presentNonFile s' p hpnf, hpnf⟩

/-- Witness for C5 at concrete inputs: re-creating the existing folder `b`
changes nothing, and a successful creation of `a` in the empty state
followed by a second call is also a no-op success. -/
theorem createFolderIfMissing_idempotent_witness :
    createFolderIfMissingRecursion [(["b"], ItemType.folder)] ["b"] =
      .ok [(["b"], ItemType.folder)] ∧
    (createFolderIfMissingRecursion [(["a"], ItemType.folder)] ["a"] =
      .ok [(["a"], ItemType.folder)] ∧
     presentNonFile [(["a"], ItemType.folder)] ["a"]) :=
  ⟨createFolderIfMissing_idempotent.1 [(["b"], ItemType.folder)] ["b"]
      (Or.inr rfl),
   createFolderIfMissing_idempotent.2 [] ["a"] [(["a"], ItemType.folder)] rfl⟩

end FFS
